import Mathlib

/-!
Shallow embedding of `src/Application.py` (class `Application`) from the
PolicyAnalysis repository: a runtime instance of a Linux Desktop application,
with identity resolution through the XDG desktop-file cache, a time-sorted
event log, a file-descriptor table, and merge/split operations.

Python integers are embedded as `Int`; Python `None`-able strings as
`Option String` with explicit truthiness (`None` and `""` are falsy);
Python exceptions as `Except String`; the mutable object state as explicit
record values passed and returned.  External collaborators (the XDG desktop
entry parser, the `DESKTOPPATHS`/`DESKTOPIDRE` configuration from
`constants.py`, and `FileFactory.resolveFDRef`) are oracle parameters
gathered in a `Config` structure, since they live outside `Application.py`.
-/

namespace PolicyAnalysis

/-- Python truthiness of an optional string: `None` and `""` are falsy. -/
def pyTruthy : Option String → Bool
  | none => false
  | some s => s ≠ ""

/-- Python `str(x)` for an optional string: `None` renders as `"None"`.
Used by the `"%s:%d:%d"` format in `Application._regenUid`. -/
def pyStr : Option String → String
  | none => "None"
  | some s => s

/-- `str.startswith`, on the character sequence (as Python indexes by
codepoint). -/
def strStartsWith (s pre : String) : Bool := pre.data.isPrefixOf s.data

/-- `str.endswith`, on the character sequence. -/
def strEndsWith (s post : String) : Bool := post.data.isSuffixOf s.data

/-- `str.lower`, on the character sequence. -/
def strToLower (s : String) : String := ⟨s.data.map Char.toLower⟩

/-- Python slicing `s[n:]`, on the character sequence. -/
def strDrop (s : String) (n : Nat) : String := ⟨s.data.drop n⟩

/-- An `Event` as used by `Application`: the event log compares events by
object identity/equality (`set` difference in `merge`), and sorts them by
their `time` attribute (`sortedlist(key=lambda i: i.time)`).  We model the
identity by a numeric tag `eid` plus the timestamp. -/
structure Event where
  eid : Nat
  time : Int
  deriving DecidableEq, Repr

/-- One file-descriptor interval `(path, time of opening, time of closing)`
as appended by `Application.openFD`; closing time `0` means still open. -/
structure FDEnt where
  path : String
  topen : Int
  tclose : Int
  deriving DecidableEq, Repr

/-- The state of an `Application` object: the attributes assigned by
`Application.__init__` and mutated by the methods.  `uid` is the cached
`_uid` string, regenerated only by `_regenUid`. -/
structure App where
  init : Bool
  desktopid : Option String
  interpreterid : Option String
  path : Option String
  cmdline : Option String
  pid : Int
  tstart : Int
  tend : Int
  uid : String
  events : List Event
  fds : List (Int × List FDEnt)
  deriving DecidableEq, Repr

/-- `Application._regenUid`: `self._uid = "%s:%d:%d" % (self.desktopid,
self.pid, self.tstart)`. -/
def uidFormat (desktopid : Option String) (pid tstart : Int) : String :=
  pyStr desktopid ++ ":" ++ toString pid ++ ":" ++ toString tstart

/-- `Application._regenUid` applied to an application state. -/
def regenUid (a : App) : App :=
  { a with uid := uidFormat a.desktopid a.pid a.tstart }

/-- `Application.uid`: returns the cached `_uid`. -/
def App.uidOf (a : App) : String := a.uid

/-- `Application.setTimeOfStart`: sets `tstart` (and does nothing else). -/
def setTimeOfStart (a : App) (val : Int) : App :=
  { a with tstart := val }

/-- `Application.setTimeOfEnd`: sets `tend` (and does nothing else). -/
def setTimeOfEnd (a : App) (val : Int) : App :=
  { a with tend := val }

/-! ### The event log

`Application.clearEvents` makes `events` a `blist.sortedlist` keyed by
`i.time`; `addEvent` inserts keeping the list sorted by time (ties keep
insertion order, i.e. a new event goes after existing equal-time events,
matching `sortedlist.add` which inserts at the right bisection point). -/

/-- Insert an event into a time-sorted list, after any event of equal or
smaller time (the `sortedlist.add` position). -/
def eventInsert (e : Event) : List Event → List Event
  | [] => [e]
  | x :: xs => if e.time < x.time then e :: x :: xs else x :: eventInsert e xs

/-- `Application.addEvent`: insert into the sorted event log. -/
def addEvent (a : App) (e : Event) : App :=
  { a with events := eventInsert e a.events }

/-- `Application.clearEvents`. -/
def clearEvents (a : App) : App := { a with events := [] }

/-- The sortedness invariant maintained by the `blist.sortedlist` event
log: times are pairwise non-decreasing. -/
def eventsSorted (l : List Event) : Prop :=
  l.Pairwise (fun x y => x.time ≤ y.time)

/-! ### split

`Application.split(beforeEnd, afterStart)` computes
`il = events.bisect_left(Event(time=beforeEnd))` and
`ir = events.bisect_right(Event(time=afterStart))` on the time-sorted
event list.  For a list sorted by the key, `bisect_left` is the number of
elements with key strictly below the probe and `bisect_right` the number of
elements with key at most the probe; we embed the two indices as those
counts. -/

/-- `sortedlist.bisect_left(Event(time=t))`: number of events with time
strictly less than `t` (the leftmost insertion index in a sorted list). -/
def bisectLeft (l : List Event) (t : Int) : Nat :=
  l.countP (fun e => e.time < t)

/-- `sortedlist.bisect_right(Event(time=t))`: number of events with time
at most `t` (the rightmost insertion index in a sorted list). -/
def bisectRight (l : List Event) (t : Int) : Nat :=
  l.countP (fun e => e.time ≤ t)

/-- `Application.split`: raises `IndexError` when the two bisection indices
differ, otherwise returns the two half-copies.  `deepcopy` duplicates every
attribute (including the cached `_uid`); the left copy gets
`events[:il]` and, when non-empty, `tend := last event time`; the right
copy gets `events[ir:]` and, when non-empty, `tstart := first event time`.
Neither half regenerates its uid. -/
def split (a : App) (beforeEnd afterStart : Int) : Except String (App × App) :=
  let il := bisectLeft a.events beforeEnd
  let ir := bisectRight a.events afterStart
  if il ≠ ir then
    .error ("Cannot split Application " ++ a.uid ++ " that contains " ++
            toString ((ir : Int) - (il : Int)) ++ " events between the runtimes " ++
            "of the two resulting Applications (between " ++
            toString beforeEnd ++ " and " ++ toString afterStart ++ ").")
  else
    let evLeft := a.events.take il
    let appLeft :=
      match evLeft.getLast? with
      | some e => { a with events := evLeft, tend := e.time }
      | none => { a with events := evLeft }
    let evRight := a.events.drop ir
    let appRight :=
      match evRight.head? with
      | some e => { a with events := evRight, tstart := e.time }
      | none => { a with events := evRight }
    .ok (appLeft, appRight)

/-! ### External collaborators and configuration

`DESKTOPPATHS` and `DESKTOPIDRE` come from `constants.py` and the desktop
entry parser from `xdg`; neither is under `src/`, so they are oracle
parameters.  `rematch` models `DESKTOPIDRE`'s match-and-extract on a
resolved path (modelled from the spec: the identifier-extraction pattern
is configuration; extraction failure falls back to the lowercased resolved
path).  `parseOk` tells whether `DesktopEntry.parse` succeeds on a path,
`realpath` models `os.path.realpath`, and `resolveFDRef` models
`FileFactory.resolveFDRef`. -/
structure Config where
  desktopPaths : List String
  parseOk : String → Bool
  realpath : String → String
  rematch : String → Option String
  resolveFDRef : String → Int → Option String

/-- The process-wide resolver state: `Application.desktopCache`, a dict
whose keys are the `finalid` values (which is `None` after a failed
resolution), mapping to the `(finalid, entry)` pair — we keep the
`finalid` component.  `probes` instruments the number of candidate
search-location parse attempts made so far (one per loop iteration of
`__getDesktopFile`), so that re-probing is observable in the model. -/
structure RState where
  cache : List (Option String × Option String)
  probes : Nat
  deriving DecidableEq, Repr

/-- Python dict assignment `d[k] = v`: replace the first binding of `k`,
or append a new binding. -/
def dictSet {α β : Type} [DecidableEq α] : List (α × β) → α → β → List (α × β)
  | [], k, v => [(k, v)]
  | (k1, v1) :: rest, k, v =>
    if k1 = k then (k, v) :: rest else (k1, v1) :: dictSet rest k v

/-- The `for path in DESKTOPPATHS` loop of `Application.__getDesktopFile`:
build the candidate path (appending `".desktop"` when absent), try to
parse it, and on the first success extract the final identifier (group 0
of `DESKTOPIDRE` lowercased, falling back to the lowercased resolved
path), breaking out of the loop.  Returns the `finalid` (None when no
location parses) and the updated probe counter. -/
def probeLoop (cfg : Config) (desktopid : String) :
    List String → Nat → Option String × Nat
  | [], probes => (none, probes)
  | p :: rest, probes =>
    let depath := cfg.realpath
      (if strEndsWith desktopid ".desktop" then p ++ desktopid
       else p ++ desktopid ++ ".desktop")
    if cfg.parseOk depath then
      let finalid := match cfg.rematch depath with
        | some g => strToLower g
        | none => strToLower depath
      (some finalid, probes + 1)
    else
      probeLoop cfg desktopid rest (probes + 1)

/-- `Application.__getDesktopFile`: if the cache has a (truthy) entry for
`desktopid`, return it; otherwise probe the search locations and store the
result in the cache under the key `finalid` (which is `None` when no
location yielded a parseable descriptor). -/
def getDesktopFile (cfg : Config) (st : RState) (desktopid : String) :
    Option String × RState :=
  match st.cache.lookup (some desktopid) with
  | some cached => (cached, st)
  | none =>
    let r := probeLoop cfg desktopid cfg.desktopPaths st.probes
    (r.1, { cache := dictSet st.cache r.1 r.1, probes := r.2 })

/-- `Application.getDesktopIdFromDesktopUri`: empty/None uri yields
`(None, None)`; otherwise strip a leading `"application://"` scheme and
look the identifier up. -/
def getDesktopIdFromDesktopUri (cfg : Config) (st : RState)
    (uri : Option String) : Option String × RState :=
  if pyTruthy uri then
    let u := pyStr uri
    let defile := if strStartsWith u "application://" then strDrop u 14 else u
    getDesktopFile cfg st defile
  else (none, st)

/-- `Application.__initFromDesktopID`: resolve `self.desktopid`; raise
`ValueError` when no identifier was resolved, else adopt the resolved
identifier and mark the record initialised. -/
def initFromDesktopID (cfg : Config) (st : RState) (a : App) :
    Except String (App × RState) :=
  let r := getDesktopIdFromDesktopUri cfg st a.desktopid
  if pyTruthy r.1 then
    .ok ({ a with desktopid := r.1, init := true }, r.2)
  else
    .error ("Could not initialise desktopid " ++ pyStr a.desktopid)

/-- Modelled from the spec: `Application.__initFromPath` is called by the
constructor (src/Application.py line 64) but its definition is not under
`src/`.  Per spec §4.2, construction from a raw path leaves the identity
unresolved and makes no resolver call: it records the uninitialised
status and touches neither the cache nor the probe counter. -/
def initFromPath (a : App) : App := { a with init := false }

/-- `Application.__init__`: clear events and fds, null out
desktopid/cmdline/path, then initialise from the (truthy) desktopid —
lowercased, resolved eagerly — or from the (truthy) path, or raise
`ValueError`; finally record pid, tstart, tend, the lowercased
interpreterid, and regenerate the uid. -/
def appInit (cfg : Config) (st : RState) (desktopid path : Option String)
    (pid tstart tend : Int) (interpreterid : Option String) :
    Except String (App × RState) :=
  let a : App := { init := false, desktopid := none, interpreterid := none,
                   path := none, cmdline := none, pid := 0, tstart := 0,
                   tend := 0, uid := "", events := [], fds := [] }
  let step : Except String (App × RState) :=
    if pyTruthy desktopid then
      initFromDesktopID cfg st
        { a with desktopid := some (strToLower (pyStr desktopid)) }
    else if pyTruthy path then
      .ok (initFromPath { a with path := path }, st)
    else
      .error "A binary path or a Desktop id are needed to instantiate an Application."
  match step with
  | .error e => .error e
  | .ok (a1, st1) =>
    let interp : Option String :=
      if pyTruthy interpreterid then some (strToLower (pyStr interpreterid))
      else none
    let a2 := { a1 with pid := pid, tstart := tstart, tend := tend, interpreterid := interp }
    .ok (regenUid a2, st1)

/-! ### merge -/

/-- `self.events.update(list(set(other.events) - set(self.events)))`:
insert every event of `others` not already in `mine` (duplicates removed
by event equality) into the time-sorted list. -/
def eventsUpdate (mine others : List Event) : List Event :=
  (others.eraseDups.filter (fun e => ¬ mine.contains e)).foldl
    (fun acc e => eventInsert e acc) mine

/-- `Application.merge(other)`: raises `ValueError` on initialisation
mismatch, pid mismatch, or irreconcilable desktop ids; on the
interpreter-indirection branches, `self.interpreterid == other.desktopid`
keeps everything (`pass`) while `self.desktopid == other.interpreterid`
makes `self` adopt `other`'s desktopid (regenerating the uid) and
interpreter id.  Then path and cmdline are filled from `other` when falsy
on `self`, `tstart := min`, `tend := max`, the event logs are unioned, and
the uid regenerated.  The embedding returns the post-states of both
objects `(self, other)`; the source assigns only to `self`'s attributes. -/
def merge (s o : App) : Except String (App × App) :=
  if s.init ≠ o.init then
    .error "Initialised Applications cannot be merged with uninitialised ones."
  else if s.pid ≠ o.pid then
    .error "Only Applications with the same PID can be merged."
  else
    let idStep : Option App :=
      if s.desktopid ≠ o.desktopid then
        if s.interpreterid = o.desktopid then some s
        else if s.desktopid = o.interpreterid then
          let s1 := regenUid { s with desktopid := o.desktopid }
          some { s1 with interpreterid := o.interpreterid }
        else none
      else some s
    match idStep with
    | none => .error "Only Applications with the same Desktop id can be merged."
    | some s1 =>
      let s2 := if ¬ pyTruthy s1.path ∧ pyTruthy o.path
                then { s1 with path := o.path } else s1
      let s3 := if ¬ pyTruthy s2.cmdline ∧ pyTruthy o.cmdline
                then { s2 with cmdline := o.cmdline } else s2
      let s4 := setTimeOfStart s3 (min o.tstart s3.tstart)
      let s5 := setTimeOfEnd s4 (max o.tend s4.tend)
      let s6 := { s5 with events := eventsUpdate s5.events o.events }
      .ok (regenUid s6, o)

/-! ### The file-descriptor table -/

/-- `Application.openFD`: fetch the fd's interval list (empty when
missing), resolve an `@`-prefixed reference through the FileFactory
collaborator (keeping the original on falsy resolution), and append
`(path, time, 0)`.  The ordering sanity check only prints. -/
def openFD (cfg : Config) (a : App) (fd : Int) (path : String) (time : Int) :
    App :=
  let fdList := (a.fds.lookup fd).getD []
  let path := if strStartsWith path "@" then
      match cfg.resolveFDRef path time with
      | some r => if r = "" then path else r
      | none => path
    else path
  { a with fds := dictSet a.fds fd (fdList ++ [⟨path, time, 0⟩]) }

/-- `Application.closeFD`: when the fd has a (non-empty) interval list
whose last interval is still open (close time `0`), set its close time;
otherwise a silent no-op. -/
def closeFD (a : App) (fd : Int) (time : Int) : App :=
  match a.fds.lookup fd with
  | none => a
  | some fdList =>
    match fdList.getLast? with
    | none => a
    | some last =>
      if last.tclose = 0 then
        let closedList := fdList.dropLast ++ [⟨last.path, last.topen, time⟩]
        { a with fds := dictSet a.fds fd closedList }
      else a

/-- The containment test of `Application.resolveFD`'s linear scan:
`time >= tstart and (not tend or time <= tend)`. -/
def fdContains (time : Int) (iv : FDEnt) : Bool :=
  decide (iv.topen ≤ time) && (iv.tclose == 0 || decide (time ≤ iv.tclose))

/-- `Application.resolveFD`: `None` for an unknown (or empty, hence falsy)
fd entry; otherwise the path of the first interval containing `time`, or
`None` when the scan falls through. -/
def resolveFD (a : App) (fd : Int) (time : Int) : Option String :=
  match a.fds.lookup fd with
  | none => none
  | some fds =>
    if fds = [] then none
    else (fds.find? (fdContains time)).map FDEnt.path

/-- `Application.clearFDs`. -/
def clearFDs (a : App) : App := { a with fds := [] }

/-- A call on the file-descriptor table: `openFD` or `closeFD`. -/
inductive FDOp where
  | openOp (fd : Int) (path : String) (time : Int)
  | closeOp (fd : Int) (time : Int)
  deriving DecidableEq, Repr

/-- Apply one table call. -/
def applyFDOp (cfg : Config) (a : App) : FDOp → App
  | .openOp fd path time => openFD cfg a fd path time
  | .closeOp fd time => closeFD a fd time

/-- Apply a sequence of table calls in order. -/
def applyFDOps (cfg : Config) (a : App) (ops : List FDOp) : App :=
  ops.foldl (applyFDOp cfg) a

/-- Whether an `Except` result is a success. -/
def exceptOk {ε α : Type} : Except ε α → Bool
  | .ok _ => true
  | .error _ => false

/-! ## Concrete fixtures used by witnesses and counterexamples -/

/-- An empty resolver state: fresh `desktopCache`, no probes yet. -/
def st0 : RState := { cache := [], probes := 0 }

/-- A configuration whose only search location holds a parseable
`ristretto.desktop` descriptor. -/
def cfgEx : Config :=
  { desktopPaths := ["/usr/share/applications/"]
    parseOk := fun s => s == "/usr/share/applications/ristretto.desktop"
    realpath := fun s => s
    rematch := fun s =>
      if s == "/usr/share/applications/ristretto.desktop" then some "ristretto"
      else none
    resolveFDRef := fun _ _ => none }

/-- A configuration in which no search location yields a parseable
descriptor. -/
def cfgNoDesktop : Config :=
  { desktopPaths := ["/usr/share/applications/"]
    parseOk := fun _ => false
    realpath := fun s => s
    rematch := fun _ => none
    resolveFDRef := fun _ _ => none }

/-- A record whose time-of-end is the unbounded sentinel `0`. -/
def c1self : App :=
  { init := true, desktopid := some "firefox", interpreterid := none,
    path := none, cmdline := none, pid := 7, tstart := 100, tend := 0,
    uid := "firefox:7:100", events := [], fds := [] }

/-- A record with the same identity and pid as `c1self` but a bounded
time-of-end. -/
def c1other : App :=
  { init := true, desktopid := some "firefox", interpreterid := none,
    path := none, cmdline := none, pid := 7, tstart := 50, tend := 300,
    uid := "firefox:7:50", events := [], fds := [] }

/-- A record holding a single event at time 5. -/
def c3app : App :=
  { init := true, desktopid := some "x", interpreterid := none,
    path := none, cmdline := none, pid := 1, tstart := 0, tend := 9,
    uid := "x:1:0", events := [⟨0, 5⟩], fds := [] }

/-- A record with two events at times 1 and 9, leaving a gap around 3–7. -/
def wApp : App :=
  { init := true, desktopid := some "x", interpreterid := none,
    path := none, cmdline := none, pid := 1, tstart := 0, tend := 9,
    uid := "x:1:0", events := [⟨0, 1⟩, ⟨1, 9⟩], fds := [] }

/-- A script-host record: its interpreter identity is `python`. -/
def c4self : App :=
  { init := true, desktopid := some "bash", interpreterid := some "python",
    path := none, cmdline := none, pid := 4, tstart := 10, tend := 20,
    uid := "bash:4:10", events := [], fds := [] }

/-- A record whose canonical identifier is `python`, mergeable with
`c4self` through interpreter indirection. -/
def c4other : App :=
  { init := true, desktopid := some "python", interpreterid := none,
    path := none, cmdline := none, pid := 4, tstart := 5, tend := 25,
    uid := "python:4:5", events := [], fds := [] }

/-- A freshly constructed record with a consistent uid. -/
def c7app : App :=
  { init := true, desktopid := some "x", interpreterid := none,
    path := none, cmdline := none, pid := 1, tstart := 0, tend := 9,
    uid := "x:1:0", events := [], fds := [] }

/-- The record of the spec's §8 split example and of
`tests/TestLibraryManager.py`: identifier `ristretto`, pid 21, start 0,
end 300, one event at time 140. -/
def rec8 : App :=
  { init := true, desktopid := some "ristretto", interpreterid := none,
    path := none, cmdline := none, pid := 21, tstart := 0, tend := 300,
    uid := "ristretto:21:0", events := [⟨0, 140⟩], fds := [] }

/-- A record with a fresh (empty) file-descriptor table. -/
def fhApp0 : App :=
  { init := true, desktopid := some "app", interpreterid := none,
    path := none, cmdline := none, pid := 1, tstart := 0, tend := 0,
    uid := "app:1:0", events := [], fds := [] }

/-- The record produced by constructing from the raw path `/usr/bin/x`
with pid 1, tstart 2, tend 3. -/
def c7init : App :=
  { init := false, desktopid := none, interpreterid := none,
    path := some "/usr/bin/x", cmdline := none, pid := 1, tstart := 2,
    tend := 3, uid := "None:1:2", events := [], fds := [] }

/-- The record produced by merging `c4self` with `c4other`. -/
def c7merged : App :=
  { init := true, desktopid := some "bash", interpreterid := some "python",
    path := none, cmdline := none, pid := 4, tstart := 5, tend := 25,
    uid := "bash:4:5", events := [], fds := [] }

/-- The left half of `split wApp 3 7`. -/
def c7l : App :=
  { init := true, desktopid := some "x", interpreterid := none,
    path := none, cmdline := none, pid := 1, tstart := 0, tend := 1,
    uid := "x:1:0", events := [⟨0, 1⟩], fds := [] }

/-- The right half of `split wApp 3 7`. -/
def c7r : App :=
  { init := true, desktopid := some "x", interpreterid := none,
    path := none, cmdline := none, pid := 1, tstart := 9, tend := 9,
    uid := "x:1:0", events := [⟨1, 9⟩], fds := [] }

/-- The resolver state after one failed resolution of `foo.desktop` under
`cfgNoDesktop`: the negative result sits under the key `none`. -/
def st1 : RState := { cache := [(none, none)], probes := 1 }

/-! ## Helper lemmas on the bisection counts -/

/-- With `b ≤ a`, the events counted by `bisect_right(a)` are those counted
by `bisect_left(b)` plus those with time in the closed interval `[b, a]`. -/
theorem countP_le_decompose (l : List Event) (b a : Int) (hba : b ≤ a) :
    l.countP (fun e => e.time ≤ a) =
      l.countP (fun e => e.time < b) +
        l.countP (fun e => b ≤ e.time ∧ e.time ≤ a) := by
  induction l with
  | nil => rfl
  | cons e l ih =>
    simp only [List.countP_cons, decide_eq_true_eq, ih]
    split_ifs <;> omega

/-- On a time-sorted list, taking `countP p` elements yields exactly the
elements satisfying `p`, provided `p` is downward closed along time. -/
theorem take_countP_of_sorted (p : Event → Bool)
    (hp : ∀ x y : Event, x.time ≤ y.time → p y = true → p x = true) :
    ∀ l : List Event, eventsSorted l → l.take (l.countP p) = l.filter p := by
  intro l
  induction l with
  | nil => intro _; rfl
  | cons e l ih =>
    intro hs
    rw [eventsSorted, List.pairwise_cons] at hs
    obtain ⟨h1, h2⟩ := hs
    by_cases hpe : p e = true
    · rw [List.countP_cons, if_pos hpe, List.take_succ_cons,
          List.filter_cons_of_pos hpe, ih h2]
    · have hall : ∀ y ∈ l, ¬p y = true := by
        intro y hy hpy
        exact hpe (hp e y (h1 y hy) hpy)
      have hz : l.countP p = 0 := List.countP_eq_zero.mpr hall
      rw [List.countP_cons, if_neg hpe, hz, List.take_zero,
          List.filter_cons_of_neg hpe]
      exact (List.filter_eq_nil_iff.mpr hall).symm

/-- On a time-sorted list, dropping `countP p` elements yields exactly the
elements not satisfying `p`, provided `p` is downward closed along time. -/
theorem drop_countP_of_sorted (p : Event → Bool)
    (hp : ∀ x y : Event, x.time ≤ y.time → p y = true → p x = true) :
    ∀ l : List Event, eventsSorted l →
      l.drop (l.countP p) = l.filter (fun e => !(p e)) := by
  intro l
  induction l with
  | nil => intro _; rfl
  | cons e l ih =>
    intro hs
    rw [eventsSorted, List.pairwise_cons] at hs
    obtain ⟨h1, h2⟩ := hs
    by_cases hpe : p e = true
    · rw [List.countP_cons, if_pos hpe, List.drop_succ_cons, ih h2,
          List.filter_cons_of_neg (by simp [hpe])]
    · have hall : ∀ y ∈ l, ¬p y = true := by
        intro y hy hpy
        exact hpe (hp e y (h1 y hy) hpy)
      have hz : l.countP p = 0 := List.countP_eq_zero.mpr hall
      rw [List.countP_cons, if_neg hpe, hz, List.drop_zero,
          List.filter_cons_of_pos (by simp [hpe])]
      refine congrArg (e :: ·) ?_
      exact (List.filter_eq_self.mpr (by intro y hy; simp [hall y hy])).symm

/-- Both halves of a successful `split` carry the original list's take/drop
at the common bisection index, whatever the `tend`/`tstart` adjustment. -/
theorem split_ok_events (a : App) (b c : Int) (l r : App)
    (h : split a b c = Except.ok (l, r)) :
    bisectLeft a.events b = bisectRight a.events c ∧
      l.events = a.events.take (bisectLeft a.events b) ∧
      r.events = a.events.drop (bisectRight a.events c) ∧
      l.uid = a.uid ∧ r.uid = a.uid ∧
      l.tstart = a.tstart ∧ r.tend = a.tend ∧
      l.desktopid = a.desktopid ∧ r.desktopid = a.desktopid ∧
      l.pid = a.pid ∧ r.pid = a.pid := by
  by_cases hir : bisectLeft a.events b = bisectRight a.events c
  · refine ⟨hir, ?_⟩
    unfold split at h
    rw [if_neg (by simpa using hir)] at h
    rcases hL : (a.events.take (bisectLeft a.events b)).getLast? with _ | eL <;>
      rcases hR : (a.events.drop (bisectRight a.events c)).head? with _ | eR <;>
      simp only [hL, hR] at h <;>
      [skip; skip; skip; skip] <;>
      · injection h with h1
        injection h1 with hl hr
        subst hl hr
        simp
  · exfalso
    unfold split at h
    rw [if_pos (by simpa using hir)] at h
    exact Except.noConfusion h

/-! ## Claim C2 -/

/-- Claim C2: for every record and bounds `b ≤ a`, if some event's
timestamp falls strictly between `b` and `a` then `split b a` raises the
unsplittable-range error, and no event is silently dropped — a successful
split partitions the event list without loss (`left ++ right` is exactly
the original list), and success precludes any event strictly between the
bounds.  (On failure the embedding returns only the error message, so the
original record is untouched.) -/
theorem split_strict_gap_fails (app : App) (b a : Int) (hba : b ≤ a) :
    ((∃ e ∈ app.events, b < e.time ∧ e.time < a) →
        exceptOk (split app b a) = false) ∧
    (∀ l r, split app b a = Except.ok (l, r) →
        (∀ e ∈ app.events, ¬(b < e.time ∧ e.time < a)) ∧
        l.events ++ r.events = app.events) := by
  have hdec := countP_le_decompose app.events b a hba
  constructor
  · rintro ⟨e, he, hb, ha⟩
    have hmid : 0 < app.events.countP (fun e => b ≤ e.time ∧ e.time ≤ a) :=
      List.countP_pos_iff.mpr ⟨e, he, by simp only [decide_eq_true_eq]; omega⟩
    have hne : bisectLeft app.events b ≠ bisectRight app.events a := by
      unfold bisectLeft bisectRight
      omega
    unfold split
    rw [if_pos hne]
    rfl
  · intro l r h
    obtain ⟨hir, hl, hr, _⟩ := split_ok_events app b a l r h
    constructor
    · rintro e he ⟨hb, ha⟩
      have hmid : 0 < app.events.countP (fun e => b ≤ e.time ∧ e.time ≤ a) :=
        List.countP_pos_iff.mpr ⟨e, he, by simp only [decide_eq_true_eq]; omega⟩
      unfold bisectLeft bisectRight at hir
      omega
    · rw [hl, hr, ← hir]
      exact List.take_append_drop _ _

/-- Witness for C2 at a concrete input: the record with one event at
time 5 and the bounds 3 ≤ 7, whose event lies strictly between. -/
theorem split_strict_gap_fails_witness :
    (3 : Int) ≤ 7 ∧ exceptOk (split c3app 3 7) = false :=
  ⟨by decide,
   (split_strict_gap_fails c3app 3 7 (by decide)).1
     ⟨⟨0, 5⟩, by decide, by decide, by decide⟩⟩

/-! ## Claim C3 -/

/-- Claim C3 counterexample: `c3app` holds one event at time 5; no event
lies strictly between the bounds 5 and 7 (and 5 ≤ 7), yet `split 5 7`
fails, because the code compares `bisect_left(beforeEnd)` with
`bisect_right(afterStart)` and therefore also rejects events at exactly
the bounds. -/
theorem split_gap_succeeds_cex :
    c3app.events.all (fun e => !(decide (5 < e.time) && decide (e.time < 7))) = true ∧
    (5 : Int) ≤ 7 ∧
    exceptOk (split c3app 5 7) = false := by
  refine ⟨by decide, by decide, by rfl⟩

/-- Claim C3 (amended): the split succeeds when no event timestamp lies in
the **closed** interval `[beforeEnd, afterStart]` (not merely the open
one); in that case every event with timestamp ≤ `beforeEnd` goes to the
left record, every event with timestamp ≥ `afterStart` goes to the right
record, and concatenating the two event lists reproduces the original
exactly. -/
theorem split_partition (app : App) (b a : Int) (hba : b ≤ a)
    (hs : eventsSorted app.events)
    (hgap : ∀ e ∈ app.events, ¬(b ≤ e.time ∧ e.time ≤ a)) :
    ∃ l r, split app b a = Except.ok (l, r) ∧
      l.events = app.events.filter (fun e => e.time ≤ b) ∧
      r.events = app.events.filter (fun e => a ≤ e.time) ∧
      l.events ++ r.events = app.events := by
  have hdec := countP_le_decompose app.events b a hba
  have hmid : app.events.countP (fun e => b ≤ e.time ∧ e.time ≤ a) = 0 :=
    List.countP_eq_zero.mpr (by
      intro e he
      simpa only [decide_eq_true_eq] using hgap e he)
  have hir : bisectLeft app.events b = bisectRight app.events a := by
    unfold bisectLeft bisectRight
    omega
  obtain ⟨l, r, h⟩ : ∃ l r, split app b a = Except.ok (l, r) := by
    unfold split
    rw [if_neg (show ¬ bisectLeft app.events b ≠ bisectRight app.events a
      from fun hn => hn hir)]
    exact ⟨_, _, rfl⟩
  obtain ⟨_, hl, hr, _⟩ := split_ok_events app b a l r h
  have hlt : ∀ x y : Event, x.time ≤ y.time →
      decide (y.time < b) = true → decide (x.time < b) = true := by
    intro x y hxy hy
    simp only [decide_eq_true_eq] at hy ⊢
    omega
  have hltake := take_countP_of_sorted (fun e => decide (e.time < b)) hlt
    app.events hs
  have hldrop := drop_countP_of_sorted (fun e => decide (e.time ≤ a))
    (by
      intro x y hxy hy
      simp only [decide_eq_true_eq] at hy ⊢
      omega)
    app.events hs
  refine ⟨l, r, h, ?_, ?_, ?_⟩
  · rw [hl]
    unfold bisectLeft
    rw [hltake]
    refine List.filter_congr ?_
    intro e he
    have hne := hgap e he
    rw [decide_eq_decide]
    omega
  · rw [hr]
    unfold bisectRight
    rw [hldrop]
    refine List.filter_congr ?_
    intro e he
    have hne := hgap e he
    rw [← decide_not, decide_eq_decide]
    omega
  · rw [hl, hr, ← hir]
    exact List.take_append_drop _ _

/-- Witness for the amended C3 at a concrete input: the record with events
at times 1 and 9, split across the empty closed gap [3, 7]. -/
theorem split_partition_witness :
    (3 : Int) ≤ 7 ∧
    ∃ l r, split wApp 3 7 = Except.ok (l, r) ∧
      l.events = wApp.events.filter (fun e => e.time ≤ 3) ∧
      r.events = wApp.events.filter (fun e => (7 : Int) ≤ e.time) ∧
      l.events ++ r.events = wApp.events :=
  ⟨by decide,
   split_partition wApp 3 7 (by decide) (by unfold eventsSorted; decide)
     (by decide)⟩

/-! ## Claim C1 -/

/-- Claim C1, evaluated at the failing input: `c1self` has the unbounded
sentinel `tend = 0` and `c1other` the bounded end 300; the merge succeeds
with `tstart = min(50, 100) = 50` as claimed, but `tend` becomes
`max(300, 0) = 300` — the code computes `max` blindly, so the merged
time-of-end does **not** remain unbounded as the claim requires. -/
theorem merge_unbounded_end_lost :
    (merge c1self c1other).map (fun r => (r.1.tstart, r.1.tend)) =
      Except.ok (50, 300) := by
  rfl

/-! ## Claim C4 -/

/-- Claim C4 counterexample: `c4self` (identifier `bash`, interpreter
identity `python`) and `c4other` (identifier `python`) are related exactly
as the claim demands — self's interpreter identity equals other's
canonical identifier — and the merge succeeds, but the merged record
carries `bash`, self's identifier, not other's: the
`self.interpreterid == other.desktopid` branch of the source is a `pass`.
-/
theorem merge_interpreter_carries_other_id_cex :
    c4self.interpreterid = c4other.desktopid ∧
    c4other.desktopid = some "python" ∧
    (merge c4self c4other).map (fun r => r.1.desktopid) =
      Except.ok (some "bash") := by
  refine ⟨by rfl, by rfl, by rfl⟩

/-- Claim C4 (amended): records with equal pid and equal initialisation
status whose identities are related by self's interpreter identity
equalling other's canonical identifier merge successfully, and the merged
record **retains self's** canonical identifier (other's identifier is
adopted only in the converse case, when self's identifier equals other's
interpreter identity). -/
theorem merge_interpreter_indirection (s o : App)
    (hinit : s.init = o.init) (hpid : s.pid = o.pid)
    (hint : s.interpreterid = o.desktopid) :
    (merge s o).map (fun r => r.1.desktopid) = Except.ok s.desktopid := by
  unfold merge
  rw [if_neg (by simp [hinit]), if_neg (by simp [hpid])]
  by_cases hd : s.desktopid = o.desktopid
  · rw [if_neg (show ¬s.desktopid ≠ o.desktopid from fun hn => hn hd)]
    dsimp only
    split_ifs <;> rfl
  · rw [if_pos hd, if_pos hint]
    dsimp only
    split_ifs <;> rfl

/-- Witness for the amended C4: the concrete interpreter-indirected pair
`c4self`, `c4other`. -/
theorem merge_interpreter_indirection_witness :
    (merge c4self c4other).map (fun r => r.1.desktopid) =
      Except.ok c4self.desktopid :=
  merge_interpreter_indirection c4self c4other rfl rfl rfl

/-! ## Claim C8 -/

/-- Claim C8 counterexample: on the exact record of the claim —
identifier `ristretto`, pid 21, start 0, end 300, one event at time 140 —
`split(139, 141)` does **not** succeed: the event at 140 lies between the
two bisection bounds, so the code raises the unsplittable-range
`IndexError`. -/
theorem split_ristretto_cex :
    split rec8 139 141 =
      Except.error ("Cannot split Application ristretto:21:0 that contains 1 events between the runtimes of the two resulting Applications (between 139 and 141).") := by
  rfl

/-- Claim C8 (amended): on the `ristretto` record, `split(139, 141)`
fails because the event at 140 lies within the split gap; bounds whose
closed gap excludes 140 — here `split(139, 139)` — produce the described
outcome, except that the left record's time-of-end stays at the record's
original end 300 (not 0): a left half with zero events and `tend`
unchanged, and a right half holding the single event at time 140 with
`tstart` updated to 140. -/
theorem split_ristretto_amended :
    (split rec8 139 139).map
        (fun r => (r.1.events, r.1.tend, r.2.events, r.2.tstart)) =
      Except.ok ([], 300, [⟨0, 140⟩], 140) := by
  rfl

/-! ## Claim C10 -/

/-- Claim C10: `merge` mutates and returns only `self`.  The embedding
returns the post-state of both objects; on every path — all three error
paths and the success path, through every identity/path/cmdline branch —
the returned `other` component is the argument `other` unchanged: the
source assigns only to `self`'s attributes and merely reads `other`'s
identity, interpreter identity, pid, times, path, command line and event
log. -/
theorem merge_frame_other (s o : App) :
    match merge s o with
    | Except.ok r => r.2 = o
    | Except.error _ => True := by
  unfold merge
  split_ifs <;> trivial

/-! ## Claim C7 -/

/-- Claim C7 counterexample: `c7app` has a consistent uid
(`x:1:0` for identifier `x`, pid 1, tstart 0); after `setTimeOfStart 5`
the derived key is **not** recomputed, so `uid()` no longer equals
`f(identifier, pid, time-of-start)` at the current field values. -/
theorem uid_consistency_cex :
    (setTimeOfStart c7app 5).uidOf ≠
      uidFormat (setTimeOfStart c7app 5).desktopid (setTimeOfStart c7app 5).pid
        (setTimeOfStart c7app 5).tstart := by
  decide

/-- Claim C7 (amended): the derived key is recomputed by construction and
by merge (both end in `_regenUid`), so `uid()` is consistent with the
fields after those operations; but `setTimeOfStart` and `split` never
regenerate it — `setTimeOfStart` leaves the cached uid untouched, and
both halves of a split keep the original record's uid verbatim even
though the right half's time-of-start was adjusted. -/
theorem uid_regen_points :
    (∀ cfg st did p pid ts te iid app st1a,
        appInit cfg st did p pid ts te iid = Except.ok (app, st1a) →
        app.uid = uidFormat app.desktopid app.pid app.tstart) ∧
    (∀ s o m o1, merge s o = Except.ok (m, o1) →
        m.uid = uidFormat m.desktopid m.pid m.tstart) ∧
    (∀ a v, (setTimeOfStart a v).uid = a.uid) ∧
    (∀ a b c l r, split a b c = Except.ok (l, r) →
        l.uid = a.uid ∧ r.uid = a.uid) := by
  refine ⟨?_, ?_, ?_, ?_⟩
  · intro cfg st did p pid ts te iid app st1a h
    unfold appInit at h
    dsimp only at h
    repeat' split at h
    all_goals cases h
    all_goals rfl
  · intro s o m o1 h
    unfold merge at h
    dsimp only at h
    repeat' split at h
    all_goals cases h
    all_goals rfl
  · intro a v
    rfl
  · intro a b c l r h
    obtain ⟨_, _, _, hlu, hru, _⟩ := split_ok_events a b c l r h
    exact ⟨hlu, hru⟩

/-- Witness for the amended C7: path construction, the `c4self`/`c4other`
merge, `setTimeOfStart`, and the `wApp` split, all at concrete inputs. -/
theorem uid_regen_points_witness :
    c7init.uid = uidFormat c7init.desktopid c7init.pid c7init.tstart ∧
    c7merged.uid = uidFormat c7merged.desktopid c7merged.pid c7merged.tstart ∧
    (setTimeOfStart c7app 5).uid = c7app.uid ∧
    (c7l.uid = wApp.uid ∧ c7r.uid = wApp.uid) :=
  ⟨uid_regen_points.1 cfgEx st0 none (some "/usr/bin/x") 1 2 3 none c7init st0 rfl,
   uid_regen_points.2.1 c4self c4other c7merged c4other rfl,
   uid_regen_points.2.2.1 c7app 5,
   uid_regen_points.2.2.2 wApp 3 7 c7l c7r rfl⟩

/-! ## Claim C5 -/

/-- Claim C5: (a) construction from a raw (truthy) path alone always
succeeds, leaves the identity unresolved (`init = false`, no canonical
identifier) and never touches the resolver state (no cache access, no
probe); (b) construction with neither a descriptor identifier nor a path
fails with the invalid-construction `ValueError`; (c) construction from a
descriptor identifier fails exactly when resolving the (lowercased)
identifier yields no truthy canonical id. -/
theorem appInit_contract (cfg : Config) (st : RState) :
    (∀ p pid ts te iid, p ≠ "" →
        (appInit cfg st none (some p) pid ts te iid).map
            (fun r => (r.1.init, r.1.desktopid, r.2)) =
          Except.ok (false, none, st)) ∧
    (∀ did p pid ts te iid, pyTruthy did = false → pyTruthy p = false →
        appInit cfg st did p pid ts te iid =
          Except.error "A binary path or a Desktop id are needed to instantiate an Application.") ∧
    (∀ d pid ts te iid, d ≠ "" →
        (exceptOk (appInit cfg st (some d) none pid ts te iid) = false ↔
          pyTruthy (getDesktopIdFromDesktopUri cfg st (some (strToLower d))).1 = false)) := by
  refine ⟨?_, ?_, ?_⟩
  · intro p pid ts te iid hp
    unfold appInit
    dsimp only
    rw [if_neg (show ¬pyTruthy (none : Option String) = true by
          simp [pyTruthy]),
        if_pos (show pyTruthy (some p) = true by simp [pyTruthy, hp])]
    rfl
  · intro did p pid ts te iid h1 h2
    unfold appInit
    dsimp only
    rw [if_neg (show ¬pyTruthy did = true by simp [h1]),
        if_neg (show ¬pyTruthy p = true by simp [h2])]
  · intro d pid ts te iid hd
    unfold appInit initFromDesktopID
    dsimp only
    rw [if_pos (show pyTruthy (some d) = true by simp [pyTruthy, hd])]
    dsimp only [pyStr]
    by_cases hres :
        pyTruthy (getDesktopIdFromDesktopUri cfg st (some (strToLower d))).1 = true
    · rw [if_pos hres]
      simp [exceptOk, hres]
    · rw [if_neg hres]
      simp only [Bool.not_eq_true] at hres
      simp [exceptOk, hres]

/-- Witness for C5 under the concrete configuration `cfgEx`: path
construction from `/usr/bin/x`, empty construction, and descriptor
construction from the unresolvable `foo.desktop`. -/
theorem appInit_contract_witness :
    ((appInit cfgEx st0 none (some "/usr/bin/x") 1 2 3 none).map
        (fun r => (r.1.init, r.1.desktopid, r.2)) =
      Except.ok (false, none, st0)) ∧
    (appInit cfgEx st0 none none 0 0 0 none =
      Except.error "A binary path or a Desktop id are needed to instantiate an Application.") ∧
    (exceptOk (appInit cfgEx st0 (some "foo.desktop") none 0 0 0 none) = false ↔
      pyTruthy (getDesktopIdFromDesktopUri cfgEx st0
        (some (strToLower "foo.desktop"))).1 = false) :=
  ⟨(appInit_contract cfgEx st0).1 "/usr/bin/x" 1 2 3 none (by decide),
   (appInit_contract cfgEx st0).2.1 none none 0 0 0 none (by rfl) (by rfl),
   (appInit_contract cfgEx st0).2.2 "foo.desktop" 0 0 0 none (by decide)⟩

/-! ## Claim C6 -/

/-- Claim C6, evaluated at the failing input: resolving `foo.desktop`
under a configuration where no search location yields a parseable
descriptor returns no identifier — and construction from it raises — but
the negative result is cached under the key `None` (the `finalid`), not
under `foo.desktop`; a second resolution of the same identifier therefore
misses the cache and probes the search locations again (the probe counter
rises from 1 to 2), contrary to the claim's "without re-probing". -/
theorem negative_resolution_reprobes :
    getDesktopFile cfgNoDesktop st0 "foo.desktop" = (none, st1) ∧
    st1.cache.lookup (some "foo.desktop") = none ∧
    getDesktopFile cfgNoDesktop st1 "foo.desktop" =
      (none, { cache := [(none, none)], probes := 2 }) ∧
    appInit cfgNoDesktop st0 (some "foo.desktop") none 0 0 0 none =
      Except.error "Could not initialise desktopid foo.desktop" := by
  refine ⟨by rfl, by rfl, by rfl, by rfl⟩

/-! ## Claim C9 -/

/-- The correctness of `resolveFD`'s linear scan on an arbitrary record:
a returned locator is the path of a containing interval of that handle
(indeed the first one), and `None` is returned precisely when no interval
of the handle contains the queried time — in particular for an unknown
handle, whose interval list is empty. -/
theorem resolveFD_find (a : App) (fd t : Int) :
    (∀ p, resolveFD a fd t = some p →
        ∃ iv, iv ∈ (a.fds.lookup fd).getD [] ∧ fdContains t iv = true ∧
          iv.path = p) ∧
    (resolveFD a fd t = none ↔
        ∀ iv ∈ (a.fds.lookup fd).getD [], fdContains t iv = false) := by
  unfold resolveFD
  rcases hl : a.fds.lookup fd with _ | fds
  · simp
  · dsimp only [Option.getD]
    by_cases hfds : fds = []
    · subst hfds
      simp
    · rw [if_neg hfds]
      constructor
      · intro p hp
        rcases hfind : fds.find? (fdContains t) with _ | iv
        · rw [hfind] at hp
          cases hp
        · rw [hfind] at hp
          refine ⟨iv, List.mem_of_find?_eq_some hfind,
            List.find?_some hfind, ?_⟩
          injection hp
      · simp [List.find?_eq_none]

/-- Claim C9: for every sequence of `openFD`/`closeFD` calls applied to a
record with a fresh handle table and every `resolveFD` query, the result
is the locator of a (the first) interval of that handle containing the
queried time — an interval whose close time is the open sentinel 0
matching any time at or after its open time — and `None` exactly when no
interval of that handle contains the time or the handle is unknown. -/
theorem resolveFD_interval_scan (cfg : Config) (ops : List FDOp) (fd t : Int) :
    (∀ p, resolveFD (applyFDOps cfg fhApp0 ops) fd t = some p →
        ∃ iv, iv ∈ ((applyFDOps cfg fhApp0 ops).fds.lookup fd).getD [] ∧
          fdContains t iv = true ∧ iv.path = p) ∧
    (resolveFD (applyFDOps cfg fhApp0 ops) fd t = none ↔
        ∀ iv ∈ ((applyFDOps cfg fhApp0 ops).fds.lookup fd).getD [],
          fdContains t iv = false) :=
  resolveFD_find (applyFDOps cfg fhApp0 ops) fd t

/-- Witness for C9 at the spec's example: after `open(3, "/tmp/x", 10)`,
resolving handle 3 at time 15 yields a containing interval with locator
`/tmp/x`. -/
theorem resolveFD_interval_scan_witness :
    ∃ iv, iv ∈ (((applyFDOps cfgEx fhApp0
        [FDOp.openOp 3 "/tmp/x" 10]).fds.lookup 3).getD []) ∧
      fdContains 15 iv = true ∧ iv.path = "/tmp/x" :=
  (resolveFD_interval_scan cfgEx [FDOp.openOp 3 "/tmp/x" 10] 3 15).1
    "/tmp/x" (by rfl)

end PolicyAnalysis
